import Mathlib

/-!
Shallow embedding of the minimalist video editor's Timeline & Trim Controller
(src/components/Icons.tsx, Timeline component), the owning application session
(src/App.tsx) and the supporting services (src/services/ffmpegService.ts,
src/services/frameExtractService.ts).

JavaScript numbers are modelled as rationals (ℚ); all arithmetic appearing in
the modelled code is exact (min, max, addition, subtraction, multiplication,
division), so ℚ is a faithful carrier except
where noted. Decimal literals of the source are written as exact fractions:
0.5 = 1/2, 0.01 = 1/100, 1.5 = 3/2. Note: Lean's ℚ defines x / 0 = 0 whereas
JavaScript yields ±Infinity or NaN, so every division by the axis width is
faithful only for width ≠ 0: the zero-width evaluation theorem documents the
JS values it cannot reproduce, and the drag-invariant theorem carries a
width ≠ 0 hypothesis because on a zero-width axis the code emits NaN ranges
that ℚ cannot represent.
-/

/-- `TimeRange` from src/types (part_002): `{ start, end }` in float seconds. -/
structure TimeRange where
  start : ℚ
  «end» : ℚ
deriving DecidableEq, Repr

/-- `FrameThumbnail` from src/types (part_002): `{ timestamp, url }`. -/
structure FrameThumbnail where
  timestamp : ℚ
  url : String
deriving DecidableEq, Repr

namespace Timeline

/-- `TrimDragMode` of src/components/Icons.tsx (Timeline):
`'move' | 'start' | 'end'`. -/
inductive TrimDragMode where
  | move
  | start
  | «end»
deriving DecidableEq, Repr

/-- The `trimDrag` state of the Timeline component:
`{ mode, startX: e.clientX, startRange: TimeRange }`. -/
structure TrimDrag where
  mode : TrimDragMode
  startX : ℚ
  startRange : TimeRange
deriving DecidableEq, Repr

/-- The `hoverInfo` state: `{ x, time, url: string | null }`. -/
structure HoverInfo where
  x : ℚ
  time : ℚ
  url : Option String
deriving DecidableEq, Repr

/-- `clamp` of the Timeline component:
`(value, min, max) => Math.min(Math.max(value, min), max)`. -/
def clamp (value lo hi : ℚ) : ℚ := min (max value lo) hi

/-- `findFrame` of the Timeline component: `frames.reduce((prev, curr) =>
Math.abs(curr.timestamp - time) < Math.abs(prev.timestamp - time) ? curr : prev)`
on a non-empty list, `null` on an empty one. JavaScript's initial-value-free
`reduce` starts from the first element and folds the rest from the left. -/
def findFrame (frames : List FrameThumbnail) (time : ℚ) : Option FrameThumbnail :=
  match frames with
  | [] => none
  | f :: rest =>
      some (rest.foldl
        (fun prev curr =>
          if |curr.timestamp - time| < |prev.timestamp - time| then curr else prev)
        f)

/-- The comparison step of `findFrame`'s `reduce`, named for use in lemmas:
keep `prev` unless `curr` is strictly closer to `time` (so ties keep the
earlier element). -/
def closer (time : ℚ) (prev curr : FrameThumbnail) : FrameThumbnail :=
  if |curr.timestamp - time| < |prev.timestamp - time| then curr else prev

/-- The value returned by `getPosition`: `{ x, time }`. -/
structure Position where
  x : ℚ
  time : ℚ
deriving DecidableEq, Repr

/-- `getPosition` of the Timeline component.  `hasContainer` models
`containerRef.current` being non-null, `width` models `rect.width`, `rectLeft`
models `rect.left`.  Source:
`if (!containerRef.current || duration === 0) return null;`
`const x = clientX - rect.left;`
`const pos = Math.max(0, Math.min(1, x / rect.width));`
`return { x, time: pos * duration };`
(The width is NOT guarded: only a null container or a zero duration yield
`null`.  In JavaScript `x / 0` is ±Infinity, or NaN when `x = 0`; in ℚ it is 0,
so the embedding is faithful for `width ≠ 0` and, at `width = 0`, faithful in
that `getPosition` returns a non-null value, though not in the time value
JavaScript computes.) -/
def getPosition (hasContainer : Bool) (duration width rectLeft clientX : ℚ) :
    Option Position :=
  if hasContainer = false ∨ duration = 0 then none
  else
    let x := clientX - rectLeft
    let pos := max 0 (min 1 (x / width))
    some ⟨x, pos * duration⟩

/-- The component state touched by the pointer handlers:
`hoverInfo`, `isScrubbing`, `trimDrag`. -/
structure TimelineState where
  hoverInfo : Option HoverInfo
  isScrubbing : Bool
  trimDrag : Option TrimDrag
deriving DecidableEq, Repr

/-- The calls a handler may emit to the owning session:
`onSeek(time)` and `onTrimRangeChange(range)`. -/
structure Emissions where
  seekEmit : Option ℚ
  trimEmit : Option TimeRange
deriving DecidableEq, Repr

/-- `updateHover`: recompute `hoverInfo` from the pointer position; a `null`
`getPosition` leaves the hover state untouched (`if (!pos) return;`). -/
def updateHover (hasContainer : Bool) (duration width rectLeft clientX : ℚ)
    (frames : List FrameThumbnail) (hover : Option HoverInfo) : Option HoverInfo :=
  match getPosition hasContainer duration width rectLeft clientX with
  | none => hover
  | some pos => some ⟨pos.x, pos.time, (findFrame frames pos.time).map (·.url)⟩

/-- `scrubTo`: `const pos = getPosition(clientX); if (!pos) return;
onSeek(pos.time);` — the seek emitted by a scrub, if any. -/
def scrubTo (hasContainer : Bool) (duration width rectLeft clientX : ℚ) :
    Option ℚ :=
  (getPosition hasContainer duration width rectLeft clientX).map (·.time)

/-- Result of `handlePointerDown`: the new component state, whether the pointer
was captured, and the emitted session calls. -/
structure DownResult where
  state : TimelineState
  captured : Bool
  emit : Emissions
deriving DecidableEq, Repr

/-- `handlePointerDown` of the Timeline component.  `role` models
`(e.target as HTMLElement).dataset.role`; `pointerIsMouse` models
`e.pointerType === 'mouse'`; `trimRange` is the `trimRange` prop. -/
def handlePointerDown (hasContainer : Bool) (duration width rectLeft clientX : ℚ)
    (pointerIsMouse : Bool) (role : Option String) (trimRange : Option TimeRange)
    (frames : List FrameThumbnail) (s : TimelineState) : DownResult :=
  if hasContainer = false ∨ duration = 0 then ⟨s, false, ⟨none, none⟩⟩
  else
    let isTrimHit := trimRange.isSome ∧
      (role = some "trim-range" ∨ role = some "trim-handle-start" ∨
        role = some "trim-handle-end")
    if h : isTrimHit then
      let tr := trimRange.get (h.1)
      let mode : TrimDragMode :=
        if role = some "trim-range" then .move
        else if role = some "trim-handle-start" then .start
        else .«end»
      ⟨{ s with trimDrag := some ⟨mode, clientX, tr⟩ }, true, ⟨none, none⟩⟩
    else
      let hover :=
        if pointerIsMouse then
          updateHover hasContainer duration width rectLeft clientX frames s.hoverInfo
        else s.hoverInfo
      ⟨{ s with isScrubbing := true, hoverInfo := hover }, true,
        ⟨scrubTo hasContainer duration width rectLeft clientX, none⟩⟩

/-- Result of `handlePointerMove`: the new component state and the emitted
session calls. -/
structure MoveResult where
  state : TimelineState
  emit : Emissions
deriving DecidableEq, Repr

/-- `handlePointerMove` of the Timeline component, covering the three trim drag
modes, hover update and scrubbing.  Mirrors the source line by line (the
`minDuration`, `rangeDuration`, `deltaTime` lets; `Math.min(0.5, duration)` is
`min (1/2) duration`).  The division in `deltaTime` is ℚ's `x / 0 = 0` when
`width = 0`, whereas JavaScript gives NaN (at `clientX = startX`) or ±Infinity
— so the embedding is faithful for `width ≠ 0`; at `width = 0` it still
reproduces THAT an emission happens (the code has no width guard), but not the
NaN/±Infinity value JavaScript feeds into it. -/
def handlePointerMove (hasContainer : Bool) (duration width rectLeft clientX : ℚ)
    (pointerIsMouse : Bool) (frames : List FrameThumbnail) (s : TimelineState) :
    MoveResult :=
  if hasContainer = false ∨ duration = 0 then ⟨s, ⟨none, none⟩⟩
  else
    match s.trimDrag with
    | some trimDrag =>
        let minDuration := min (1/2) duration
        let rangeDuration := trimDrag.startRange.«end» - trimDrag.startRange.start
        let deltaTime := (clientX - trimDrag.startX) / width * duration
        if trimDrag.mode = .move then
          let maxStart := max 0 (duration - rangeDuration)
          let nextStart := clamp (trimDrag.startRange.start + deltaTime) 0 maxStart
          let nextEnd := nextStart + rangeDuration
          ⟨s, ⟨none, some ⟨nextStart, nextEnd⟩⟩⟩
        else
          match getPosition hasContainer duration width rectLeft clientX with
          | none => ⟨s, ⟨none, none⟩⟩
          | some pos =>
              if trimDrag.mode = .start then
                ⟨s, ⟨none, some ⟨clamp pos.time 0 (trimDrag.startRange.«end» - minDuration),
                      trimDrag.startRange.«end»⟩⟩⟩
              else
                ⟨s, ⟨none, some ⟨trimDrag.startRange.start,
                      clamp pos.time (trimDrag.startRange.start + minDuration) duration⟩⟩⟩
    | none =>
        let hover :=
          if pointerIsMouse then
            updateHover hasContainer duration width rectLeft clientX frames s.hoverInfo
          else s.hoverInfo
        let seek :=
          if s.isScrubbing then scrubTo hasContainer duration width rectLeft clientX
          else none
        ⟨{ s with hoverInfo := hover }, ⟨seek, none⟩⟩

/-- Result of a terminal pointer event (`up` or `cancel`): the new component
state, whether pointer capture was released, and the emitted session calls. -/
structure UpResult where
  state : TimelineState
  released : Bool
  emit : Emissions
deriving DecidableEq, Repr

/-- `handlePointerUp`: release capture if held, clear `trimDrag` and
`isScrubbing`; `hoverInfo` is left alone; nothing is emitted. -/
def handlePointerUp (hasCapture : Bool) (s : TimelineState) : UpResult :=
  ⟨{ s with trimDrag := none, isScrubbing := false }, hasCapture, ⟨none, none⟩⟩

/-- `handlePointerCancel`: release capture if held, clear `isScrubbing`,
`hoverInfo` and `trimDrag`; nothing is emitted. -/
def handlePointerCancel (hasCapture : Bool) (s : TimelineState) : UpResult :=
  ⟨{ s with isScrubbing := false, hoverInfo := none, trimDrag := none },
    hasCapture, ⟨none, none⟩⟩

end Timeline

namespace App

/-- The slice of the `App` component state (src/App.tsx) the verified handlers
touch: the authoritative `trimRange`, the playback position (the model merges
`video.currentTime` and `videoRef.current.currentTime`, which the handlers keep
equal), and the `isPlaying` flag. -/
structure AppState where
  trimRange : Option TimeRange
  currentTime : ℚ
  isPlaying : Bool
deriving DecidableEq, Repr

/-- `clampToRange` of src/App.tsx:
`if (!range) return time; return Math.min(Math.max(time, range.start), range.end);`
(the source's default argument `range = trimRange` is passed explicitly). -/
def clampToRange (time : ℚ) (range : Option TimeRange) : ℚ :=
  match range with
  | none => time
  | some r => min (max time r.start) r.«end»

/-- `updateTrimRange` of src/App.tsx: normalize the incoming range (swap if
`start > end`), store it, and — when a video element exists (`hasVideo` models
`videoRef.current` being non-null) — re-clamp the playback position into the
normalized range.  The source only writes `currentTime` when the clamped value
differs, which yields the same state. -/
def updateTrimRange (hasVideo : Bool) (s : AppState) (range : TimeRange) : AppState :=
  let normalized :=
    if range.start ≤ range.«end» then range else TimeRange.mk range.«end» range.start
  if hasVideo = false then { s with trimRange := some normalized }
  else
    let clamped := clampToRange s.currentTime (some normalized)
    { s with trimRange := some normalized, currentTime := clamped }

/-- `handleSeek` of src/App.tsx: clamp the requested time into the active trim
range (a no-op without a video element). -/
def handleSeek (hasVideo : Bool) (s : AppState) (time : ℚ) : AppState :=
  if hasVideo = false then s
  else { s with currentTime := clampToRange time s.trimRange }

/-- `handleTimeUpdate` of src/App.tsx; `current` is the position reported by
the video element (`videoRef.current.currentTime`).  Below the range start the
position is forced to the start; above the range end the element is paused and
forced to the end; otherwise the report is accepted. -/
def handleTimeUpdate (hasVideo : Bool) (s : AppState) (current : ℚ) : AppState :=
  if hasVideo = false then s
  else
    match s.trimRange with
    | some r =>
        if current < r.start then { s with currentTime := r.start }
        else if current > r.«end» then
          { s with currentTime := r.«end», isPlaying := false }
        else { s with currentTime := current }
    | none => { s with currentTime := current }

end App

namespace FFmpegService

/-- `loadFFmpeg` of src/services/ffmpegService.ts, as a transition on the
module-level memo `let ffmpeg: FFmpeg | null = null`.  `memo` is the memo cell
before the call; `fresh` stands for the identity of the `new FFmpeg()` instance
the call would create; `loadOk` models whether fetching the core assets and
`await ffmpeg.load(...)` succeed.  The call returns the new memo cell and
either the handle or the propagated error:
`if (ffmpeg) return ffmpeg;` — memoized handle, no initialization attempted;
on success the fresh handle is stored and returned; on failure
`ffmpeg = null; throw error;` — the memo is invalidated and the error rethrown. -/
def loadFFmpeg (memo : Option ℕ) (fresh : ℕ) (loadOk : Bool) :
    Option ℕ × Except Unit ℕ :=
  match memo with
  | some h => (some h, Except.ok h)
  | none =>
      if loadOk then (some fresh, Except.ok fresh)
      else (none, Except.error ())

end FFmpegService

namespace FrameExtract

/-- The thumbnail timestamps produced by `extractFramesWithVideo`
(src/services/frameExtractService.ts, lines 36–67) and equally by
`extractFrames` (src/services/ffmpegService.ts, lines 77–99): both compute
`safeDuration = Number.isFinite(duration) && duration > 0 ? duration : 0;`
`if (!safeDuration) return [];`
`totalFrames = Math.min(30, Math.max(10, Math.floor(safeDuration * 1.5)));`
`timeStep = safeDuration / totalFrames;`
`maxTimestamp = Math.max(0, safeDuration - 0.01);`
`timestamp_i = Math.min(maxTimestamp, i * timeStep)` for `i = 0 .. totalFrames-1`.
The input duration is a JavaScript number, modelled as `Option ℚ` where `none`
stands for a non-finite value (NaN or ±Infinity), so that `Number.isFinite` is
`Option.isSome`.  The image side (canvas/FFmpeg output) is opaque; the model
returns the timestamp sequence, one entry per produced thumbnail. -/
def extractFramesTimestamps (duration : Option ℚ) : List ℚ :=
  let safeDuration : ℚ :=
    match duration with
    | some d => if 0 < d then d else 0
    | none => 0
  if safeDuration = 0 then []
  else
    let totalFrames := (min 30 (max 10 ⌊safeDuration * (3/2)⌋)).toNat
    let timeStep := safeDuration / (totalFrames : ℚ)
    let maxTimestamp := max 0 (safeDuration - 1/100)
    (List.range totalFrames).map
      (fun (i : ℕ) => min maxTimestamp ((i : ℚ) * timeStep))

end FrameExtract

namespace Timeline

theorem le_clamp (v lo hi : ℚ) (h : lo ≤ hi) : lo ≤ clamp v lo hi :=
  le_min (le_trans (le_max_right v lo) (le_refl _)) h

theorem clamp_le (v lo hi : ℚ) : clamp v lo hi ≤ hi :=
  min_le_right _ _

theorem getPosition_eq (duration width rectLeft clientX : ℚ) (hd : duration ≠ 0) :
    getPosition true duration width rectLeft clientX =
      some ⟨clientX - rectLeft, max 0 (min 1 ((clientX - rectLeft) / width)) * duration⟩ := by
  simp [getPosition, hd]

theorem handlePointerMove_trimEmit_move
    (duration width rectLeft clientX : ℚ) (pointerIsMouse : Bool)
    (frames : List FrameThumbnail) (s : TimelineState) (td : TrimDrag)
    (hdrag : s.trimDrag = some td) (hd : duration ≠ 0) (hmode : td.mode = .move) :
    (handlePointerMove true duration width rectLeft clientX pointerIsMouse frames s).emit.trimEmit =
      some ⟨clamp (td.startRange.start + (clientX - td.startX) / width * duration) 0
              (max 0 (duration - (td.startRange.«end» - td.startRange.start))),
            clamp (td.startRange.start + (clientX - td.startX) / width * duration) 0
              (max 0 (duration - (td.startRange.«end» - td.startRange.start))) +
              (td.startRange.«end» - td.startRange.start)⟩ := by
  simp [handlePointerMove, hdrag, hd, hmode]

theorem handlePointerMove_trimEmit_start
    (duration width rectLeft clientX : ℚ) (pointerIsMouse : Bool)
    (frames : List FrameThumbnail) (s : TimelineState) (td : TrimDrag)
    (hdrag : s.trimDrag = some td) (hd : duration ≠ 0) (hmode : td.mode = .start) :
    (handlePointerMove true duration width rectLeft clientX pointerIsMouse frames s).emit.trimEmit =
      some ⟨clamp (max 0 (min 1 ((clientX - rectLeft) / width)) * duration) 0
              (td.startRange.«end» - min (1/2) duration),
            td.startRange.«end»⟩ := by
  have hmove : td.mode ≠ .move := by rw [hmode]; intro h; cases h
  simp [handlePointerMove, hdrag, hd, hmode, hmove, getPosition_eq]

theorem handlePointerMove_guard_none
    (hasContainer : Bool) (duration width rectLeft clientX : ℚ)
    (pointerIsMouse : Bool) (frames : List FrameThumbnail) (s : TimelineState)
    (hg : hasContainer = false ∨ duration = 0) :
    handlePointerMove hasContainer duration width rectLeft clientX
      pointerIsMouse frames s = ⟨s, ⟨none, none⟩⟩ := by
  simp [handlePointerMove, hg]

theorem handlePointerMove_trimEmit_end
    (duration width rectLeft clientX : ℚ) (pointerIsMouse : Bool)
    (frames : List FrameThumbnail) (s : TimelineState) (td : TrimDrag)
    (hdrag : s.trimDrag = some td) (hd : duration ≠ 0) (hmode : td.mode = .«end») :
    (handlePointerMove true duration width rectLeft clientX pointerIsMouse frames s).emit.trimEmit =
      some ⟨td.startRange.start,
            clamp (max 0 (min 1 ((clientX - rectLeft) / width)) * duration)
              (td.startRange.start + min (1/2) duration) duration⟩ := by
  have hmove : td.mode ≠ .move := by rw [hmode]; intro h; cases h
  have hstart : td.mode ≠ .start := by rw [hmode]; intro h; cases h
  simp [handlePointerMove, hdrag, hd, hmove, hstart, getPosition_eq]

end Timeline

set_option maxHeartbeats 1000000 in
/-- C1: every drag update (Move, AdjustStart or AdjustEnd) whose origin range
satisfies the TimeRange invariant — `0 ≤ start ≤ end ≤ duration` and
`end - start ≥ minSpan` with `minSpan = min(0.5, duration)` — emits to the
owning session a range that again satisfies the invariant; in particular no
emitted range has `end ≤ start`.  The hypothesis `width ≠ 0` restricts the
statement to the geometry in which the ℚ embedding is faithful to JavaScript
arithmetic (§4.1 of the spec defines the mapping only there): on a zero-width
axis JavaScript's `deltaTime = (clientX - startX) / 0 * duration` is NaN or
±Infinity and the code, lacking a width guard (the missing-guard bug recorded
at `zero_width_axis_not_noop`), emits a NaN range in Move mode at
`clientX = startX`, which no ℚ term can represent (ℚ evaluates `x / 0` to 0). -/
theorem trim_drag_emission_preserves_invariant
    (hasContainer : Bool) (duration width rectLeft clientX : ℚ)
    (pointerIsMouse : Bool) (frames : List FrameThumbnail)
    (s : Timeline.TimelineState) (td : Timeline.TrimDrag)
    (hw : width ≠ 0)
    (hdrag : s.trimDrag = some td)
    (h0 : 0 ≤ td.startRange.start)
    (h1 : td.startRange.start ≤ td.startRange.«end»)
    (h2 : td.startRange.«end» ≤ duration)
    (h3 : min (1/2) duration ≤ td.startRange.«end» - td.startRange.start)
    (r : TimeRange)
    (hemit : (Timeline.handlePointerMove hasContainer duration width rectLeft
        clientX pointerIsMouse frames s).emit.trimEmit = some r) :
    0 ≤ r.start ∧ r.start ≤ r.«end» ∧ r.«end» ≤ duration ∧
      min (1/2) duration ≤ r.«end» - r.start ∧ r.start < r.«end» := by
  by_cases hg : hasContainer = false ∨ duration = 0
  · rw [Timeline.handlePointerMove_guard_none _ _ _ _ _ _ _ _ hg] at hemit
    exact absurd hemit (by simp)
  · push_neg at hg
    obtain ⟨hcne, hdne⟩ := hg
    have hc : hasContainer = true := by
      cases hasContainer
      · exact absurd rfl hcne
      · rfl
    subst hc
    have hdur0 : (0:ℚ) ≤ duration := le_trans (le_trans h0 h1) h2
    have hdpos : 0 < duration := lt_of_le_of_ne hdur0 (Ne.symm hdne)
    have hm0 : 0 < min (1/2 : ℚ) duration := lt_min (by norm_num) hdpos
    have hmle : min (1/2 : ℚ) duration ≤
        td.startRange.«end» - td.startRange.start := h3
    cases hmode : td.mode with
    | move =>
        rw [Timeline.handlePointerMove_trimEmit_move duration width rectLeft
          clientX pointerIsMouse frames s td hdrag hdne hmode] at hemit
        obtain rfl := Option.some.inj hemit
        dsimp only
        have hspdur : td.startRange.«end» - td.startRange.start ≤ duration := by
          linarith
        have hmax : max 0 (duration - (td.startRange.«end» - td.startRange.start)) =
            duration - (td.startRange.«end» - td.startRange.start) :=
          max_eq_right (by linarith)
        have hns0 : 0 ≤ Timeline.clamp
            (td.startRange.start + (clientX - td.startX) / width * duration) 0
            (max 0 (duration - (td.startRange.«end» - td.startRange.start))) :=
          Timeline.le_clamp _ _ _ (le_max_left _ _)
        have hnsle : Timeline.clamp
            (td.startRange.start + (clientX - td.startX) / width * duration) 0
            (max 0 (duration - (td.startRange.«end» - td.startRange.start))) ≤
            duration - (td.startRange.«end» - td.startRange.start) :=
          le_trans (Timeline.clamp_le _ _ _) hmax.le
        refine ⟨hns0, by linarith, by linarith, by linarith, by linarith⟩
    | start =>
        rw [Timeline.handlePointerMove_trimEmit_start duration width rectLeft
          clientX pointerIsMouse frames s td hdrag hdne hmode] at hemit
        obtain rfl := Option.some.inj hemit
        dsimp only
        have hlohi : (0:ℚ) ≤ td.startRange.«end» - min (1/2) duration := by
          linarith
        have hns0 : 0 ≤ Timeline.clamp
            (max 0 (min 1 ((clientX - rectLeft) / width)) * duration) 0
            (td.startRange.«end» - min (1/2) duration) :=
          Timeline.le_clamp _ _ _ hlohi
        have hnsle : Timeline.clamp
            (max 0 (min 1 ((clientX - rectLeft) / width)) * duration) 0
            (td.startRange.«end» - min (1/2) duration) ≤
            td.startRange.«end» - min (1/2) duration :=
          Timeline.clamp_le _ _ _
        refine ⟨hns0, by linarith, h2, by linarith, by linarith⟩
    | «end» =>
        rw [Timeline.handlePointerMove_trimEmit_end duration width rectLeft
          clientX pointerIsMouse frames s td hdrag hdne hmode] at hemit
        obtain rfl := Option.some.inj hemit
        dsimp only
        have hlohi : td.startRange.start + min (1/2 : ℚ) duration ≤ duration := by
          linarith
        have hne_lo : td.startRange.start + min (1/2 : ℚ) duration ≤
            Timeline.clamp (max 0 (min 1 ((clientX - rectLeft) / width)) * duration)
              (td.startRange.start + min (1/2) duration) duration :=
          Timeline.le_clamp _ _ _ hlohi
        have hne_hi : Timeline.clamp
            (max 0 (min 1 ((clientX - rectLeft) / width)) * duration)
            (td.startRange.start + min (1/2) duration) duration ≤ duration :=
          Timeline.clamp_le _ _ _
        refine ⟨h0, by linarith, hne_hi, by linarith, by linarith⟩

theorem trim_drag_emission_preserves_invariant_witness :
    0 ≤ (7:ℚ) ∧ (7:ℚ) ≤ 10 ∧ (10:ℚ) ≤ 10 ∧
      min (1/2:ℚ) 10 ≤ 10 - 7 ∧ (7:ℚ) < 10 :=
  trim_drag_emission_preserves_invariant true 10 100 0 50 false []
    ⟨none, false, some ⟨.move, 0, ⟨2, 5⟩⟩⟩ ⟨.move, 0, ⟨2, 5⟩⟩ (by norm_num) rfl
    (by norm_num) (by norm_num) (by norm_num) (by norm_num) ⟨7, 10⟩
    (by norm_num [Timeline.handlePointerMove, Timeline.clamp])

/-- C2: while a drag session is active the emitted range is exactly the one
described by §4.5 of the spec: with
`deltaTime = (clientX - pointerOriginX) / axisWidth * duration` and
`mappedTime = clamp(clientX - rectLeft, 0, width) / width * duration`
(realized as `max 0 (min 1 (x / width)) * duration`), Move emits
`start = clamp(origin.start + deltaTime, 0, duration - span)`,
`end = start + span` (span unchanged); AdjustStart emits
`start = clamp(mappedTime, 0, origin.end - minSpan)`, `end = origin.end`;
AdjustEnd emits `end = clamp(mappedTime, origin.start + minSpan, duration)`,
`start = origin.start`.  The hypothesis `span ≤ duration` is part of the
TimeRange invariant of the drag session's origin range. -/
theorem drag_update_formulas
    (duration width rectLeft clientX : ℚ) (pointerIsMouse : Bool)
    (frames : List FrameThumbnail) (s : Timeline.TimelineState)
    (td : Timeline.TrimDrag) (hdrag : s.trimDrag = some td)
    (hd : duration ≠ 0)
    (hspan : td.startRange.«end» - td.startRange.start ≤ duration) :
    (td.mode = .move →
      (Timeline.handlePointerMove true duration width rectLeft clientX
          pointerIsMouse frames s).emit.trimEmit =
        some ⟨Timeline.clamp
            (td.startRange.start + (clientX - td.startX) / width * duration) 0
            (duration - (td.startRange.«end» - td.startRange.start)),
          Timeline.clamp
            (td.startRange.start + (clientX - td.startX) / width * duration) 0
            (duration - (td.startRange.«end» - td.startRange.start)) +
            (td.startRange.«end» - td.startRange.start)⟩) ∧
    (td.mode = .start →
      (Timeline.handlePointerMove true duration width rectLeft clientX
          pointerIsMouse frames s).emit.trimEmit =
        some ⟨Timeline.clamp (max 0 (min 1 ((clientX - rectLeft) / width)) * duration)
            0 (td.startRange.«end» - min (1/2) duration),
          td.startRange.«end»⟩) ∧
    (td.mode = .«end» →
      (Timeline.handlePointerMove true duration width rectLeft clientX
          pointerIsMouse frames s).emit.trimEmit =
        some ⟨td.startRange.start,
          Timeline.clamp (max 0 (min 1 ((clientX - rectLeft) / width)) * duration)
            (td.startRange.start + min (1/2) duration) duration⟩) := by
  refine ⟨?_, ?_, ?_⟩
  · intro hmode
    have hmax : max 0 (duration - (td.startRange.«end» - td.startRange.start)) =
        duration - (td.startRange.«end» - td.startRange.start) :=
      max_eq_right (by linarith)
    rw [Timeline.handlePointerMove_trimEmit_move duration width rectLeft clientX
      pointerIsMouse frames s td hdrag hd hmode, hmax]
  · intro hmode
    exact Timeline.handlePointerMove_trimEmit_start duration width rectLeft clientX
      pointerIsMouse frames s td hdrag hd hmode
  · intro hmode
    exact Timeline.handlePointerMove_trimEmit_end duration width rectLeft clientX
      pointerIsMouse frames s td hdrag hd hmode

theorem drag_update_formulas_witness :
    (Timeline.handlePointerMove true 10 100 0 50 false []
        ⟨none, false, some ⟨.move, 0, ⟨2, 5⟩⟩⟩).emit.trimEmit = some ⟨7, 10⟩ := by
  have h := (drag_update_formulas 10 100 0 50 false []
      ⟨none, false, some ⟨.move, 0, ⟨2, 5⟩⟩⟩ ⟨.move, 0, ⟨2, 5⟩⟩ rfl
      (by norm_num) (by norm_num)).1 rfl
  rw [h]
  norm_num [Timeline.clamp]

namespace Timeline

theorem findFrame_eq_foldl (time : ℚ) (f : FrameThumbnail)
    (rest : List FrameThumbnail) :
    findFrame (f :: rest) time = some (rest.foldl (closer time) f) := rfl

/-- The left fold of `closer` returns the first element of `a :: l` realizing
the minimum distance to `time`: everything before it is strictly farther,
everything after it at least as far. -/
theorem foldl_closer_first (time : ℚ) (l : List FrameThumbnail) :
    ∀ a : FrameThumbnail,
      ∃ l₁ l₂,
        a :: l = l₁ ++ (l.foldl (closer time) a) :: l₂ ∧
        (∀ f ∈ l₁,
          |(l.foldl (closer time) a).timestamp - time| < |f.timestamp - time|) ∧
        (∀ f ∈ l₂,
          |(l.foldl (closer time) a).timestamp - time| ≤ |f.timestamp - time|) := by
  induction l with
  | nil =>
      intro a
      exact ⟨[], [], rfl, by simp, by simp⟩
  | cons c l ih =>
      intro a
      rw [List.foldl_cons]
      by_cases h : |c.timestamp - time| < |a.timestamp - time|
      · rw [show closer time a c = c from if_pos h]
        obtain ⟨l₁, l₂, heq, hlt, hle⟩ := ih c
        have hrc : |(l.foldl (closer time) c).timestamp - time| ≤
            |c.timestamp - time| := by
          cases l₁ with
          | nil =>
              rw [List.nil_append] at heq
              injection heq with hc _
              rw [← hc]
          | cons b l₁' =>
              rw [List.cons_append] at heq
              injection heq with hc _
              exact le_of_lt (hc ▸ hlt b (List.mem_cons_self b l₁'))
        refine ⟨a :: l₁, l₂, ?_, ?_, hle⟩
        · rw [List.cons_append, ← heq]
        · intro f hf
          rcases List.mem_cons.mp hf with rfl | hf'
          · exact lt_of_le_of_lt hrc h
          · exact hlt f hf'
      · rw [show closer time a c = a from if_neg h]
        push_neg at h
        obtain ⟨l₁, l₂, heq, hlt, hle⟩ := ih a
        cases l₁ with
        | nil =>
            rw [List.nil_append] at heq
            injection heq with ha hl
            refine ⟨[], c :: l₂, ?_, by simp, ?_⟩
            · rw [List.nil_append, ← ha, hl]
            · intro f hf
              rcases List.mem_cons.mp hf with rfl | hf'
              · rw [← ha]; exact h
              · exact hle f hf'
        | cons b l₁' =>
            rw [List.cons_append] at heq
            injection heq with hab hl
            have hra : |(l.foldl (closer time) a).timestamp - time| <
                |a.timestamp - time| := by
              have hb := hlt b (List.mem_cons_self b l₁')
              rw [← hab] at hb
              exact hb
            refine ⟨a :: c :: l₁', l₂, ?_, ?_, hle⟩
            · rw [List.cons_append, List.cons_append, ← hl]
            · intro f hf
              rcases List.mem_cons.mp hf with rfl | hf'
              · exact hra
              · rcases List.mem_cons.mp hf' with rfl | hf''
                · exact lt_of_lt_of_le hra h
                · exact hlt f (List.mem_cons_of_mem b hf'')

end Timeline

/-- C3 (refuting evaluation): with a positive duration but a zero-width axis,
coordinate mapping is NOT a no-op — `getPosition` only guards a null container
and `duration === 0`, not `rect.width === 0`, so it still returns a position, a
pointer-move while scrubbing still emits a seek, a mouse pointer-move still
sets hover state, and a pointer-down still starts a scrub with an immediate
seek.  (In JavaScript `x / rect.width` with width 0 yields ±Infinity — clamped
to an axis edge — or NaN when `x = 0`, which then propagates into
`onSeek`; Lean's ℚ evaluates `x / 0` to 0.  Under either semantics the
operations are performed rather than skipped, which is what this theorem
records.) -/
theorem zero_width_axis_not_noop :
    Timeline.getPosition true 1 0 0 5 = some ⟨5, 0⟩ ∧
    (Timeline.handlePointerMove true 1 0 0 5 true []
        ⟨none, true, none⟩).emit.seekEmit = some 0 ∧
    (Timeline.handlePointerMove true 1 0 0 5 true []
        ⟨none, true, none⟩).state.hoverInfo = some ⟨5, 0, none⟩ ∧
    (Timeline.handlePointerDown true 1 0 0 5 false none none []
        ⟨none, false, none⟩).emit.seekEmit = some 0 := by
  norm_num [Timeline.getPosition, Timeline.handlePointerMove,
    Timeline.handlePointerDown, Timeline.scrubTo, Timeline.updateHover,
    Timeline.findFrame]

/-- C4: `findFrame` returns the thumbnail whose timestamp has the minimum
absolute difference from the query time, ties resolving to the first such
thumbnail in sequence order (the returned frame decomposes the sequence into a
strictly-farther prefix and an at-least-as-far suffix); for timestamps
`[0, 2, 4, 6]` and query time `3` it returns the frame at `2`; for the empty
sequence it returns nothing. -/
theorem findFrame_nearest (frames : List FrameThumbnail) (time : ℚ) :
    (frames = [] → Timeline.findFrame frames time = none) ∧
    (∀ r, Timeline.findFrame frames time = some r →
      ∃ l₁ l₂, frames = l₁ ++ r :: l₂ ∧
        (∀ f ∈ l₁, |r.timestamp - time| < |f.timestamp - time|) ∧
        (∀ f ∈ l₂, |r.timestamp - time| ≤ |f.timestamp - time|)) ∧
    Timeline.findFrame [⟨0, "a"⟩, ⟨2, "b"⟩, ⟨4, "c"⟩, ⟨6, "d"⟩] 3 =
      some ⟨2, "b"⟩ := by
  refine ⟨?_, ?_, ?_⟩
  · intro h
    subst h
    rfl
  · intro r hr
    cases frames with
    | nil => simp [Timeline.findFrame] at hr
    | cons f rest =>
        rw [Timeline.findFrame_eq_foldl time f rest] at hr
        obtain rfl := Option.some.inj hr
        exact Timeline.foldl_closer_first time rest f
  · norm_num [Timeline.findFrame]

theorem findFrame_nearest_witness :
    ∃ l₁ l₂,
      [(⟨0, "a"⟩ : FrameThumbnail), ⟨2, "b"⟩, ⟨4, "c"⟩, ⟨6, "d"⟩] =
        l₁ ++ (⟨2, "b"⟩ : FrameThumbnail) :: l₂ ∧
      (∀ f ∈ l₁, |(2:ℚ) - 3| < |f.timestamp - 3|) ∧
      (∀ f ∈ l₂, |(2:ℚ) - 3| ≤ |f.timestamp - 3|) :=
  (findFrame_nearest [⟨0, "a"⟩, ⟨2, "b"⟩, ⟨4, "c"⟩, ⟨6, "d"⟩] 3).2.1
    ⟨2, "b"⟩ (by norm_num [Timeline.findFrame])

/-- C5: on pointer-down with a positive duration, a hit on the trim body,
start handle or end handle while a trim range is active creates a drag session
in mode Move, AdjustStart or AdjustEnd respectively and starts no scrub and no
seek; with no active trim range, a pointer-down — whatever element role it
lands on, including the trim body's — falls through to scrubbing and issues an
immediate seek to the mapped time. -/
theorem pointer_down_hit_test
    (duration width rectLeft clientX : ℚ) (pointerIsMouse : Bool)
    (role : Option String) (trimRange : Option TimeRange)
    (frames : List FrameThumbnail) (s : Timeline.TimelineState)
    (hd : duration ≠ 0) :
    (∀ tr, trimRange = some tr →
      (role = some "trim-range" →
        (Timeline.handlePointerDown true duration width rectLeft clientX
            pointerIsMouse role trimRange frames s).state.trimDrag =
          some ⟨.move, clientX, tr⟩ ∧
        (Timeline.handlePointerDown true duration width rectLeft clientX
            pointerIsMouse role trimRange frames s).emit.seekEmit = none ∧
        (Timeline.handlePointerDown true duration width rectLeft clientX
            pointerIsMouse role trimRange frames s).state.isScrubbing =
          s.isScrubbing) ∧
      (role = some "trim-handle-start" →
        (Timeline.handlePointerDown true duration width rectLeft clientX
            pointerIsMouse role trimRange frames s).state.trimDrag =
          some ⟨.start, clientX, tr⟩ ∧
        (Timeline.handlePointerDown true duration width rectLeft clientX
            pointerIsMouse role trimRange frames s).emit.seekEmit = none ∧
        (Timeline.handlePointerDown true duration width rectLeft clientX
            pointerIsMouse role trimRange frames s).state.isScrubbing =
          s.isScrubbing) ∧
      (role = some "trim-handle-end" →
        (Timeline.handlePointerDown true duration width rectLeft clientX
            pointerIsMouse role trimRange frames s).state.trimDrag =
          some ⟨.«end», clientX, tr⟩ ∧
        (Timeline.handlePointerDown true duration width rectLeft clientX
            pointerIsMouse role trimRange frames s).emit.seekEmit = none ∧
        (Timeline.handlePointerDown true duration width rectLeft clientX
            pointerIsMouse role trimRange frames s).state.isScrubbing =
          s.isScrubbing)) ∧
    (trimRange = none →
      (Timeline.handlePointerDown true duration width rectLeft clientX
          pointerIsMouse role trimRange frames s).state.isScrubbing = true ∧
      (Timeline.handlePointerDown true duration width rectLeft clientX
          pointerIsMouse role trimRange frames s).emit.seekEmit =
        some (max 0 (min 1 ((clientX - rectLeft) / width)) * duration) ∧
      (Timeline.handlePointerDown true duration width rectLeft clientX
          pointerIsMouse role trimRange frames s).state.trimDrag =
        s.trimDrag) := by
  constructor
  · intro tr htr
    subst htr
    refine ⟨?_, ?_, ?_⟩ <;> intro hrole <;> subst hrole <;>
      simp [Timeline.handlePointerDown, hd]
  · intro htr
    subst htr
    simp [Timeline.handlePointerDown, hd, Timeline.scrubTo, Timeline.getPosition]

theorem pointer_down_hit_test_witness :
    (Timeline.handlePointerDown true 10 100 0 30 false (some "trim-range")
        (some ⟨2, 5⟩) [] ⟨none, false, none⟩).state.trimDrag =
      some ⟨.move, 30, ⟨2, 5⟩⟩ ∧
    (Timeline.handlePointerDown true 10 100 0 30 false (some "trim-range")
        none [] ⟨none, false, none⟩).emit.seekEmit = some 3 := by
  constructor
  · exact (((pointer_down_hit_test 10 100 0 30 false (some "trim-range")
      (some ⟨2, 5⟩) [] ⟨none, false, none⟩ (by norm_num)).1 ⟨2, 5⟩ rfl).1 rfl).1
  · have h := ((pointer_down_hit_test 10 100 0 30 false (some "trim-range")
      none [] ⟨none, false, none⟩ (by norm_num)).2 rfl).2.1
    rw [h]
    norm_num

/-- C7: a terminal pointer event resets the controller to Idle — pointer-up
releases capture (when held) and clears the drag session and the scrubbing
flag while leaving the hover state alone; pointer-cancel additionally clears
the hover state; neither emits any seek or trim-range change. -/
theorem terminal_pointer_events_reset
    (hasCapture : Bool) (s : Timeline.TimelineState) :
    (Timeline.handlePointerUp hasCapture s).state.trimDrag = none ∧
    (Timeline.handlePointerUp hasCapture s).state.isScrubbing = false ∧
    (Timeline.handlePointerUp hasCapture s).state.hoverInfo = s.hoverInfo ∧
    (Timeline.handlePointerUp hasCapture s).released = hasCapture ∧
    (Timeline.handlePointerUp hasCapture s).emit = ⟨none, none⟩ ∧
    (Timeline.handlePointerCancel hasCapture s).state = ⟨none, false, none⟩ ∧
    (Timeline.handlePointerCancel hasCapture s).released = hasCapture ∧
    (Timeline.handlePointerCancel hasCapture s).emit = ⟨none, none⟩ :=
  ⟨rfl, rfl, rfl, rfl, rfl, rfl, rfl, rfl⟩

/-- C6 counterexample: `updateTrimRange` does not pause playback.  With the
session playing (`isPlaying = true`) at position 5 and a trim change to
`[0, 2]`, the old position 5 lies outside the new range (`5 > 2`), the
position is re-clamped to 2, yet `isPlaying` is still `true` after the update
— the claimed immediate pause does not happen. -/
theorem updateTrimRange_does_not_pause :
    (App.updateTrimRange true ⟨some ⟨0, 10⟩, 5, true⟩ ⟨0, 2⟩).currentTime = 2 ∧
    (App.updateTrimRange true ⟨some ⟨0, 10⟩, 5, true⟩ ⟨0, 2⟩).trimRange =
      some ⟨0, 2⟩ ∧
    (2:ℚ) < 5 ∧
    (App.updateTrimRange true ⟨some ⟨0, 10⟩, 5, true⟩ ⟨0, 2⟩).isPlaying ≠ false := by
  refine ⟨?_, ?_, by norm_num, ?_⟩ <;>
    norm_num [App.updateTrimRange, App.clampToRange]

/-- C6 (amended): after every trim-range change delivered to the owning
session, the session immediately re-clamps the playback position into the
(order-normalized) new range — `currentTime` becomes
`clamp(currentTime, start, end)` — while the trim update itself leaves the
playing flag unchanged; playback is paused by the next playback-position
report that exceeds the range end (`handleTimeUpdate`), not by the trim update
itself. -/
theorem updateTrimRange_reclamps_then_timeupdate_pauses
    (s : App.AppState) (range : TimeRange) (hn : range.start ≤ range.«end») :
    (App.updateTrimRange true s range).trimRange = some range ∧
    (App.updateTrimRange true s range).currentTime =
      App.clampToRange s.currentTime (some range) ∧
    range.start ≤ (App.updateTrimRange true s range).currentTime ∧
    (App.updateTrimRange true s range).currentTime ≤ range.«end» ∧
    (App.updateTrimRange true s range).isPlaying = s.isPlaying ∧
    (∀ reported, range.«end» < reported →
      (App.handleTimeUpdate true (App.updateTrimRange true s range)
          reported).isPlaying = false ∧
      (App.handleTimeUpdate true (App.updateTrimRange true s range)
          reported).currentTime = range.«end») := by
  have hupd : App.updateTrimRange true s range =
      { s with trimRange := some range,
               currentTime := App.clampToRange s.currentTime (some range) } := by
    simp [App.updateTrimRange, hn]
  have hclo : range.start ≤ App.clampToRange s.currentTime (some range) :=
    le_min (le_max_right _ _) hn
  have hchi : App.clampToRange s.currentTime (some range) ≤ range.«end» :=
    min_le_right _ _
  rw [hupd]
  refine ⟨rfl, rfl, hclo, hchi, rfl, ?_⟩
  intro reported hrep
  have hnotlt : ¬reported < range.start := by
    push_neg
    exact le_trans hn (le_of_lt hrep)
  constructor <;> simp [App.handleTimeUpdate, hnotlt, hrep]

theorem updateTrimRange_reclamps_then_timeupdate_pauses_witness :
    (App.updateTrimRange true ⟨some ⟨0, 10⟩, 7, true⟩ ⟨1, 3⟩).currentTime = 3 ∧
    (App.updateTrimRange true ⟨some ⟨0, 10⟩, 7, true⟩ ⟨1, 3⟩).isPlaying = true ∧
    (App.handleTimeUpdate true
        (App.updateTrimRange true ⟨some ⟨0, 10⟩, 7, true⟩ ⟨1, 3⟩) 4).isPlaying =
      false := by
  have h := updateTrimRange_reclamps_then_timeupdate_pauses
    ⟨some ⟨0, 10⟩, 7, true⟩ ⟨1, 3⟩ (by norm_num)
  refine ⟨?_, h.2.2.2.2.1, (h.2.2.2.2.2 4 (by norm_num)).1⟩
  rw [h.2.1]
  norm_num [App.clampToRange]

/-- C10 (implicit invariant): whenever a trim range is active, every
state-updating path of the owning session keeps the playback position inside
`[trimRange.start, trimRange.end]`: a seek request is clamped into the trim
range itself (not merely into `[0, duration]`), a position report below the
start is forced to the start, one above the end is forced to the end with
playback paused, and a trim-range update re-clamps the position into the
(normalized) new range. -/
theorem session_position_stays_in_trim_range
    (s : App.AppState) (r : TimeRange) (hr : s.trimRange = some r)
    (hle : r.start ≤ r.«end») :
    (∀ t, (App.handleSeek true s t).currentTime = App.clampToRange t (some r) ∧
      r.start ≤ (App.handleSeek true s t).currentTime ∧
      (App.handleSeek true s t).currentTime ≤ r.«end») ∧
    (∀ current,
      r.start ≤ (App.handleTimeUpdate true s current).currentTime ∧
      (App.handleTimeUpdate true s current).currentTime ≤ r.«end» ∧
      (current < r.start →
        (App.handleTimeUpdate true s current).currentTime = r.start) ∧
      (r.«end» < current →
        (App.handleTimeUpdate true s current).currentTime = r.«end» ∧
        (App.handleTimeUpdate true s current).isPlaying = false)) ∧
    (∀ nr, ∃ rr,
      (App.updateTrimRange true s nr).trimRange = some rr ∧
      rr.start ≤ rr.«end» ∧
      rr.start ≤ (App.updateTrimRange true s nr).currentTime ∧
      (App.updateTrimRange true s nr).currentTime ≤ rr.«end») := by
  refine ⟨?_, ?_, ?_⟩
  · intro t
    have hcur : (App.handleSeek true s t).currentTime =
        App.clampToRange t (some r) := by
      simp [App.handleSeek, hr]
    rw [hcur]
    exact ⟨rfl, le_min (le_max_right _ _) hle, min_le_right _ _⟩
  · intro current
    by_cases h1 : current < r.start
    · have hcur : App.handleTimeUpdate true s current =
          { s with currentTime := r.start } := by
        simp [App.handleTimeUpdate, hr, h1]
      rw [hcur]
      exact ⟨le_refl _, hle, fun _ => rfl, fun h2 => absurd h2 (by push_neg; linarith)⟩
    · by_cases h2 : r.«end» < current
      · have hcur : App.handleTimeUpdate true s current =
            { s with currentTime := r.«end», isPlaying := false } := by
          simp [App.handleTimeUpdate, hr, h1, h2]
        rw [hcur]
        exact ⟨hle, le_refl _, fun h => absurd h h1, fun _ => ⟨rfl, rfl⟩⟩
      · have hcur : App.handleTimeUpdate true s current =
            { s with currentTime := current } := by
          simp [App.handleTimeUpdate, hr, h1, h2]
        rw [hcur]
        push_neg at h1 h2
        exact ⟨h1, h2, fun h => absurd h (by push_neg; exact h1),
          fun h => absurd h (by push_neg; exact h2)⟩
  · intro nr
    by_cases hn : nr.start ≤ nr.«end»
    · refine ⟨nr, ?_, hn, ?_, ?_⟩
      · simp [App.updateTrimRange, hn]
      · have : (App.updateTrimRange true s nr).currentTime =
            App.clampToRange s.currentTime (some nr) := by
          simp [App.updateTrimRange, hn]
        rw [this]
        exact le_min (le_max_right _ _) hn
      · have : (App.updateTrimRange true s nr).currentTime =
            App.clampToRange s.currentTime (some nr) := by
          simp [App.updateTrimRange, hn]
        rw [this]
        exact min_le_right _ _
    · have hnswap : nr.«end» ≤ nr.start := le_of_lt (not_le.mp hn)
      refine ⟨⟨nr.«end», nr.start⟩, ?_, hnswap, ?_, ?_⟩
      · simp [App.updateTrimRange, hn]
      · have : (App.updateTrimRange true s nr).currentTime =
            App.clampToRange s.currentTime (some ⟨nr.«end», nr.start⟩) := by
          simp [App.updateTrimRange, hn, App.clampToRange]
        rw [this]
        exact le_min (le_max_right _ _) hnswap
      · have : (App.updateTrimRange true s nr).currentTime =
            App.clampToRange s.currentTime (some ⟨nr.«end», nr.start⟩) := by
          simp [App.updateTrimRange, hn, App.clampToRange]
        rw [this]
        exact min_le_right _ _

theorem session_position_stays_in_trim_range_witness :
    (App.handleSeek true ⟨some ⟨1, 4⟩, 2, true⟩ 9).currentTime = 4 ∧
    (App.handleTimeUpdate true ⟨some ⟨1, 4⟩, 2, true⟩ 5).currentTime = 4 ∧
    (App.handleTimeUpdate true ⟨some ⟨1, 4⟩, 2, true⟩ 5).isPlaying = false := by
  have h := session_position_stays_in_trim_range
    ⟨some ⟨1, 4⟩, 2, true⟩ ⟨1, 4⟩ rfl (by norm_num)
  refine ⟨?_, ((h.2.1 5).2.2.2 (by norm_num)).1, ((h.2.1 5).2.2.2 (by norm_num)).2⟩
  rw [(h.1 9).1]
  norm_num [App.clampToRange]

/-- C9: `loadFFmpeg` memoizes its handle — a memoized call returns the stored
handle without attempting initialization, a fresh successful call stores and
returns the new handle, and any later call after a success returns the same
handle with the memo unchanged; a failed initialization resets the memo to
empty and propagates the error, so the next call re-attempts initialization
(and succeeds with a fresh handle when loading works). -/
theorem loadFFmpeg_memoization (memo : Option ℕ) (fresh : ℕ) (loadOk : Bool) :
    (∀ h, memo = some h →
      FFmpegService.loadFFmpeg memo fresh loadOk = (some h, Except.ok h)) ∧
    (memo = none → loadOk = true →
      FFmpegService.loadFFmpeg memo fresh loadOk =
        (some fresh, Except.ok fresh)) ∧
    (memo = none → loadOk = false →
      FFmpegService.loadFFmpeg memo fresh loadOk = (none, Except.error ())) ∧
    (∀ st h, FFmpegService.loadFFmpeg memo fresh loadOk = (st, Except.ok h) →
      ∀ fresh' loadOk',
        FFmpegService.loadFFmpeg st fresh' loadOk' = (st, Except.ok h)) ∧
    (∀ st e, FFmpegService.loadFFmpeg memo fresh loadOk = (st, Except.error e) →
      st = none ∧
      ∀ fresh', FFmpegService.loadFFmpeg none fresh' true =
        (some fresh', Except.ok fresh')) := by
  refine ⟨?_, ?_, ?_, ?_, ?_⟩
  · intro h hm
    subst hm
    rfl
  · intro hm hok
    subst hm
    subst hok
    rfl
  · intro hm hok
    subst hm
    subst hok
    rfl
  · intro st h hcall fresh' loadOk'
    cases memo with
    | some h0 =>
        obtain ⟨h1, h2⟩ := Prod.mk.injEq .. ▸ hcall
        obtain rfl := Except.ok.inj h2
        subst h1
        rfl
    | none =>
        cases loadOk with
        | true =>
            obtain ⟨h1, h2⟩ := Prod.mk.injEq .. ▸ hcall
            obtain rfl := Except.ok.inj h2
            subst h1
            rfl
        | false =>
            exact absurd (congrArg Prod.snd hcall) (by simp [FFmpegService.loadFFmpeg])
  · intro st e hcall
    cases memo with
    | some h0 =>
        exact absurd (congrArg Prod.snd hcall) (by simp [FFmpegService.loadFFmpeg])
    | none =>
        cases loadOk with
        | true =>
            exact absurd (congrArg Prod.snd hcall) (by simp [FFmpegService.loadFFmpeg])
        | false =>
            have h1 := congrArg Prod.fst hcall
            simp only [FFmpegService.loadFFmpeg] at h1
            exact ⟨h1.symm ▸ rfl, fun fresh' => rfl⟩

theorem loadFFmpeg_memoization_witness :
    FFmpegService.loadFFmpeg none 0 true = (some 0, Except.ok 0) ∧
    FFmpegService.loadFFmpeg (some 0) 1 false = (some 0, Except.ok 0) ∧
    FFmpegService.loadFFmpeg none 2 false = (none, Except.error ()) := by
  refine ⟨(loadFFmpeg_memoization none 0 true).2.1 rfl rfl, ?_,
    (loadFFmpeg_memoization none 2 false).2.2.1 rfl rfl⟩
  exact (loadFFmpeg_memoization (some 0) 1 false).1 0 rfl

/-- C8: for a finite duration `> 0` the extracted thumbnail sequence is
ordered by timestamp ascending, has between 10 and 30 entries, and every
timestamp lies in `[0, duration)`; for a non-finite (`none`) or non-positive
duration the sequence is empty. -/
theorem extract_frames_timestamps_spec (jsDuration : Option ℚ) :
    (∀ d, jsDuration = some d → 0 < d →
      (FrameExtract.extractFramesTimestamps jsDuration).Pairwise (· ≤ ·) ∧
      10 ≤ (FrameExtract.extractFramesTimestamps jsDuration).length ∧
      (FrameExtract.extractFramesTimestamps jsDuration).length ≤ 30 ∧
      (∀ x ∈ FrameExtract.extractFramesTimestamps jsDuration, 0 ≤ x ∧ x < d)) ∧
    (jsDuration = none → FrameExtract.extractFramesTimestamps jsDuration = []) ∧
    (∀ d, jsDuration = some d → d ≤ 0 →
      FrameExtract.extractFramesTimestamps jsDuration = []) := by
  refine ⟨?_, ?_, ?_⟩
  · intro d hjs hd
    subst hjs
    have hne : d ≠ 0 := ne_of_gt hd
    have hval : FrameExtract.extractFramesTimestamps (some d) =
        (List.range ((min 30 (max 10 ⌊d * (3/2)⌋)).toNat)).map
          (fun (i : ℕ) => min (max 0 (d - 1/100))
            ((i : ℚ) * (d / ((min 30 (max 10 ⌊d * (3/2)⌋)).toNat : ℚ)))) := by
      simp [FrameExtract.extractFramesTimestamps, hd, hne]
    have h10 : (10:ℤ) ≤ min 30 (max 10 ⌊d * (3/2)⌋) :=
      le_min (by norm_num) (le_max_left _ _)
    have h30 : min 30 (max 10 ⌊d * (3/2)⌋) ≤ 30 := min_le_left _ _
    have hn10 : 10 ≤ (min 30 (max 10 ⌊d * (3/2)⌋)).toNat := by omega
    have hn30 : (min 30 (max 10 ⌊d * (3/2)⌋)).toNat ≤ 30 := by omega
    have hnpos : 0 < ((min 30 (max 10 ⌊d * (3/2)⌋)).toNat : ℚ) := by
      exact_mod_cast Nat.lt_of_lt_of_le (by norm_num) hn10
    have hstep : 0 ≤ d / ((min 30 (max 10 ⌊d * (3/2)⌋)).toNat : ℚ) :=
      div_nonneg (le_of_lt hd) (le_of_lt hnpos)
    rw [hval]
    refine ⟨?_, ?_, ?_, ?_⟩
    · rw [List.pairwise_map]
      refine (List.pairwise_lt_range _).imp ?_
      intro i j hij
      exact min_le_min (le_refl _)
        (mul_le_mul_of_nonneg_right (by exact_mod_cast le_of_lt hij) hstep)
    · simp only [List.length_map, List.length_range]
      exact hn10
    · simp only [List.length_map, List.length_range]
      exact hn30
    · intro x hx
      obtain ⟨i, _, rfl⟩ := List.mem_map.mp hx
      constructor
      · exact le_min (le_max_left _ _)
          (mul_nonneg (Nat.cast_nonneg i) hstep)
      · exact lt_of_le_of_lt (min_le_left _ _) (max_lt hd (by linarith))
  · intro hjs
    subst hjs
    simp [FrameExtract.extractFramesTimestamps]
  · intro d hjs hd
    subst hjs
    have : ¬(0:ℚ) < d := not_lt.mpr hd
    simp [FrameExtract.extractFramesTimestamps, this]

theorem extract_frames_timestamps_spec_witness :
    (FrameExtract.extractFramesTimestamps (some 4)).Pairwise (· ≤ ·) ∧
    10 ≤ (FrameExtract.extractFramesTimestamps (some 4)).length ∧
    (FrameExtract.extractFramesTimestamps (some 4)).length ≤ 30 ∧
    (∀ x ∈ FrameExtract.extractFramesTimestamps (some 4), 0 ≤ x ∧ x < 4) :=
  (extract_frames_timestamps_spec (some 4)).1 4 rfl (by norm_num)
